import Mathlib

/-!
Verification development for the Banggood scrape-and-clean pipeline
(`src/scraper.py`, `src/cleaner.py`).  The Python code is shallowly
embedded: strings become `List Char` / `String`, floats become `ℚ`,
nullable DataFrame cells become `Option`, and the fatal `assert`
statements of `clean_data` become an `Except String` result.
-/

/-- Characters stripped by Python's `str.strip()` (the `str.isspace` set). -/
def pySpace (c : Char) : Bool :=
  c == ' ' || c == '\t' || c == '\n' || c == '\u000B' || c == '\u000C' || c == '\r' ||
  c == '\u001C' || c == '\u001D' || c == '\u001E' || c == '\u001F' ||
  c == '\u0085' || c == '\u00A0' || c == '\u1680' ||
  c == '\u2000' || c == '\u2001' || c == '\u2002' || c == '\u2003' || c == '\u2004' ||
  c == '\u2005' || c == '\u2006' || c == '\u2007' || c == '\u2008' || c == '\u2009' ||
  c == '\u200A' || c == '\u2028' || c == '\u2029' || c == '\u202F' || c == '\u205F' ||
  c == '\u3000'

/-- Python `s.strip()` on a character list: drop whitespace from both ends. -/
def pyStrip (l : List Char) : List Char :=
  ((l.dropWhile pySpace).reverse.dropWhile pySpace).reverse

/-- Per-character action of the `replace` chain in `clean_text`
(`scraper.py` lines 56-61): non-breaking and thin spaces become a plain
space, the four zero-width characters are deleted, all else is kept. -/
def replChar (c : Char) : Option Char :=
  if c == '\u00A0' || c == '\u2009' then some ' '
  else if c == '\u200B' || c == '\u200C' || c == '\u200D' || c == '\uFEFF' then none
  else some c

/-- The `replace` chain of `clean_text` applied to the whole string. -/
def replStep (l : List Char) : List Char := l.filterMap replChar

/-- Control characters removed by `re.sub` on the hex ranges `00-1F` and
`7F-9F` in `clean_text` (`scraper.py` line 63). -/
def isCtrl (c : Char) : Bool :=
  c.val ≤ 0x1F || (0x7F ≤ c.val && c.val ≤ 0x9F)

/-- Removal of control characters, `scraper.py` line 63. -/
def rmCtrl (l : List Char) : List Char := l.filter (fun c => !isCtrl c)

/-- Body of `clean_text` (`scraper.py` lines 49-64) on a character list:
empty input short-circuits to empty (`if not text`), otherwise strip,
replace the special spaces, drop control characters, strip again. -/
def cleanChars (l : List Char) : List Char :=
  if l.isEmpty then [] else pyStrip (rmCtrl (replStep (pyStrip l)))

/-- The scraper's `clean_text` (`scraper.py` lines 49-64). -/
def clean_text (s : String) : String := ⟨cleanChars s.data⟩

/-- Value of a digit string under Python `int(...)`. -/
def digitsToNat (l : List Char) : ℕ :=
  l.foldl (fun a c => a * 10 + (c.toNat - 48)) 0

/-- Model of a digit-run regex search followed by `int(...)`: the first
maximal run of digits, as a number, or `none` when the text has no digit. -/
def firstDigitRun (l : List Char) : Option ℕ :=
  let l2 := l.dropWhile (fun c => !c.isDigit)
  if l2.isEmpty then none else some (digitsToNat (l2.takeWhile Char.isDigit))

/-- Case-insensitive test that the lowercase pattern `ps` begins the list. -/
def isPrefixCI : List Char → List Char → Bool
  | [], _ => true
  | _ :: _, [] => false
  | p :: ps, c :: cs => (c.toLower == p) && isPrefixCI ps cs

/-- Worker for the case-insensitive `re.sub` deletion of `reviews?`:
scan left to right, at each position delete a greedy non-overlapping match
of `reviews` or `review`, otherwise keep the character.  The first argument
is structural fuel, always called with at least the list's length. -/
def removeReviewsGo : ℕ → List Char → List Char
  | 0, _ => []
  | _, [] => []
  | fuel + 1, c :: cs =>
    if isPrefixCI ['r', 'e', 'v', 'i', 'e', 'w', 's'] (c :: cs) then
      removeReviewsGo fuel (cs.drop 6)
    else if isPrefixCI ['r', 'e', 'v', 'i', 'e', 'w'] (c :: cs) then
      removeReviewsGo fuel (cs.drop 5)
    else c :: removeReviewsGo fuel cs

/-- Model of the case-insensitive `re.sub` deleting `reviews?`
(`scraper.py` line 173). -/
def removeReviews (l : List Char) : List Char := removeReviewsGo l.length l

/-- The scraper's `extract_review_count` (`scraper.py` lines 166-182):
empty text gives 0; otherwise clean the text, delete the word
`review(s)`, strip, and take the first digit run, defaulting to 0. -/
def extract_review_count (s : String) : ℤ :=
  if s == "" then 0
  else
    let t := cleanChars s.data
    let t2 := pyStrip (removeReviews t)
    match firstDigitRun t2 with
    | some n => (n : ℤ)
    | none => 0

example : extract_review_count "1,024 reviews" = 1 := by decide
example : extract_review_count "" = 0 := by decide
example : extract_review_count "3 reviews" = 3 := by decide
example : clean_text "  a b " = "a b" := by decide

/-- Worker for Python `str.replace(pat, '')`: delete every non-overlapping
occurrence of `pat`, scanning left to right.  The first argument is
structural fuel, always called with at least the list's length. -/
def removeSubstrGo (pat : List Char) : ℕ → List Char → List Char
  | 0, _ => []
  | _, [] => []
  | fuel + 1, c :: cs =>
    if pat.isPrefixOf (c :: cs) && !pat.isEmpty then
      removeSubstrGo pat fuel ((c :: cs).drop pat.length)
    else c :: removeSubstrGo pat fuel cs

/-- Python `str.replace(pat, '')` on character lists. -/
def removeSubstr (pat : List Char) (l : List Char) : List Char :=
  removeSubstrGo pat l.length l

/-- Python `float(...)` applied to a string of digits and dots, as produced
by the cleaners' digit-and-dot filters: succeeds when there is at most one
dot and at least one digit.  Inputs holding other characters fail. -/
def parseDigitDot (l : List Char) : Option ℚ :=
  if l.count '.' ≤ 1 ∧ l.any Char.isDigit = true ∧
      l.all (fun c => c.isDigit || c == '.') = true then
    let ip := l.takeWhile (fun c => c != '.')
    let fp := (l.dropWhile (fun c => c != '.')).drop 1
    some ((digitsToNat ip : ℚ) + (digitsToNat fp : ℚ) / ((10 : ℚ) ^ fp.length))
  else none

/-- Decimal fragment of Python `float(str)`: surrounding whitespace, an
optional sign and a digits-and-single-dot body.  Values outside this
fragment (exponents, `inf`, `nan`) map to failure. -/
def pyFloat (s : String) : Option ℚ :=
  match pyStrip s.data with
  | '-' :: r => (parseDigitDot r).map (fun q => -q)
  | '+' :: r => parseDigitDot r
  | l => parseDigitDot l

/-- Raw value of one CSV cell as `pandas` hands it to the cleaners:
missing (`NaN`), an already typed number, or a string. -/
inductive Cell
  | null
  | num (q : ℚ)
  | str (s : String)
deriving DecidableEq

/-- Python `int(...)` on a float: truncation toward zero. -/
def pyInt (q : ℚ) : ℤ := if q < 0 then -(⌊-q⌋) else ⌊q⌋

/-- The cleaner's `clean_price` (`cleaner.py` lines 11-23): missing stays
missing, numbers pass through, strings lose `US$`/`$`, are stripped,
filtered to digits and dots and parsed, with parse failure giving `None`. -/
def clean_price (c : Cell) : Option ℚ :=
  match c with
  | Cell.null => none
  | Cell.num q => some q
  | Cell.str s =>
    let base := pyStrip (removeSubstr ['$'] (removeSubstr ['U', 'S', '$'] s.data))
    parseDigitDot (base.filter (fun c => c.isDigit || c == '.'))

/-- The cleaner's `clean_rating` (`cleaner.py` lines 25-34): missing maps
to 0.0, numbers pass through unchanged, strings go through `float(...)`
with failure mapping to 0.0.  No range check is performed. -/
def clean_rating (c : Cell) : ℚ :=
  match c with
  | Cell.null => 0
  | Cell.num q => q
  | Cell.str s => (pyFloat s).getD 0

/-- The cleaner's `clean_review_count` (`cleaner.py` lines 36-49): missing
maps to 0, numbers truncate to int, strings yield their first digit run
with absence mapping to 0. -/
def clean_review_count (c : Cell) : ℤ :=
  match c with
  | Cell.null => 0
  | Cell.num q => pyInt q
  | Cell.str s => ((firstDigitRun s.data).map (fun n => (n : ℤ))).getD 0

/-- Median of a list of rationals as `pandas` computes it over the non-null
values of a column: undefined on the empty list, otherwise sort and take
the middle element, or the mean of the two middle elements. -/
def median (l : List ℚ) : Option ℚ :=
  if l = [] then none
  else
    let s := l.insertionSort (fun a b => a ≤ b)
    some ((s.getD ((l.length - 1) / 2) 0 + s.getD (l.length / 2) 0) / 2)

/-- Round-half-to-even to an integer, the tie rule of Python and `numpy`
rounding. -/
def rhe (x : ℚ) : ℤ :=
  if x - ⌊x⌋ < 1 / 2 then ⌊x⌋
  else if 1 / 2 < x - ⌊x⌋ then ⌊x⌋ + 1
  else if ⌊x⌋ % 2 = 0 then ⌊x⌋ else ⌊x⌋ + 1

/-- Rounding to two decimal places, as in `Series.round(2)`. -/
def round2 (q : ℚ) : ℚ := ((rhe (q * 100) : ℤ) : ℚ) / 100

example : median [(12 : ℚ) / 10, 1, 2] = some (12 / 10) := by with_unfolding_all decide
example : median [(1 : ℚ), 2] = some (3 / 2) := by with_unfolding_all decide
example : round2 (1255 / 10000) = 13 / 100 := by with_unfolding_all decide
example : round2 (1 / 8) = 12 / 100 := by with_unfolding_all decide
example : clean_price (Cell.str "US$12.50") = some (25 / 2) := by with_unfolding_all decide
example : clean_price (Cell.str "Free") = none := by with_unfolding_all decide

/-- A row of the table after per-column cleaning, as `create_derived_features`
receives it: text columns are plain strings, numeric columns are nullable. -/
structure DRow where
  Category : String
  ProductName : String
  Price : Option ℚ
  Rating : Option ℚ
  ReviewCount : Option ℤ
  ProductURL : String
deriving DecidableEq

/-- A row of the fully derived table.  The numeric columns stay `Option`
because a `pandas` column is always nullable; the no-null claims are then
real theorems rather than typing artifacts. -/
structure CRow where
  Category : String
  ProductName : String
  Price : Option ℚ
  Rating : Option ℚ
  ReviewCount : Option ℤ
  IsHighValue : ℤ
  PricePerReview : Option ℚ
  ProductURL : String
deriving DecidableEq

/-- Lines 56-59 of `cleaner.py`: `ReviewCount.fillna(0).astype(int)` and
`Rating.fillna(0.0).astype(float)` on one row. -/
def cdfFillRR (r : DRow) : DRow :=
  { r with Rating := some (r.Rating.getD 0), ReviewCount := some (r.ReviewCount.getD 0) }

/-- Median of the non-null prices of the rows of category `c`, the quantity
`df.groupby('Category')['Price'].median()` yields per group. -/
def catMedOf (df : List DRow) (c : String) : Option ℚ :=
  median ((df.filter (fun r => r.Category == c)).filterMap (fun r => r.Price))

/-- Lines 63-65 of `cleaner.py` on one row: a missing price becomes the
category median when that median is defined, and otherwise stays missing. -/
def imputeCat (df : List DRow) (r : DRow) : DRow :=
  { r with Price := match r.Price with
      | some p => some p
      | none => catMedOf df r.Category }

/-- Lines 67-69 of `cleaner.py`: the overall median of the price column
after the per-category fill, defaulting to 0.0 when undefined. -/
def overallMedOf (df : List DRow) : ℚ :=
  (median (df.filterMap (fun r => r.Price))).getD 0

/-- Line 70 of `cleaner.py` on one row: fill a still-missing price with the
overall median. -/
def fillOverall (om : ℚ) (r : DRow) : DRow :=
  { r with Price := some (r.Price.getD om) }

/-- Lines 72-93 of `cleaner.py` on one row: the `IsHighValue` flag from the
per-category median map `cm` (with the row's own price as the `get`
default and the `isna` fallback), and `PricePerReview`. -/
def cdfRowOut (cm : String → Option ℚ) (r : DRow) : CRow :=
  let cm0 : Option ℚ := match cm r.Category with
    | some m => some m
    | none => r.Price
  let cmv : Option ℚ := match cm0 with
    | some m => some m
    | none => r.Price
  let ihv : ℤ := match r.Rating, r.Price with
    | some rat, some p =>
      (match cmv with
        | some m => if (9 : ℚ) / 2 ≤ rat ∧ p < m then 1 else 0
        | none => 0)
    | _, _ => 0
  let ppr : Option ℚ := match r.Price, r.ReviewCount with
    | some p, some n => some (p / ((max n 1 : ℤ) : ℚ))
    | _, _ => none
  { Category := r.Category, ProductName := r.ProductName, Price := r.Price,
    Rating := r.Rating, ReviewCount := r.ReviewCount, IsHighValue := ihv,
    PricePerReview := ppr, ProductURL := r.ProductURL }

/-- Rows after the `fillna` passes of lines 56-59. -/
def cdfStage1 (df : List DRow) : List DRow := df.map cdfFillRR

/-- Rows after the per-category price imputation of lines 63-65. -/
def cdfStage2 (df : List DRow) : List DRow :=
  (cdfStage1 df).map (imputeCat (cdfStage1 df))

/-- Rows after the overall-median fill of lines 67-70. -/
def cdfStage3 (df : List DRow) : List DRow :=
  (cdfStage2 df).map (fillOverall (overallMedOf (cdfStage2 df)))

/-- The cleaner's `create_derived_features` (`cleaner.py` lines 51-95). -/
def create_derived_features (df : List DRow) : List CRow :=
  (cdfStage3 df).map (cdfRowOut (catMedOf (cdfStage3 df)))

/-- Median of the price column of the derived table restricted to one
category, the reference point of the high-value rule. -/
def categoryMedianOut (out : List CRow) (c : String) : Option ℚ :=
  median ((out.filter (fun r => r.Category == c)).filterMap (fun r => r.Price))

/-- A raw CSV row as `pd.read_csv` hands it to `clean_data`: text columns
are nullable strings, the numeric-ish columns are arbitrary cells. -/
structure RawRow where
  Category : Option String
  ProductName : Option String
  Price : Cell
  Rating : Cell
  ReviewCount : Cell
  ProductURL : Option String
deriving DecidableEq

/-- Python `df[col].astype(str).str.strip()` on one nullable text cell: a
missing value becomes the literal string `nan` before stripping. -/
def astypeStrStrip (x : Option String) : String :=
  ⟨pyStrip (x.getD "nan").data⟩

/-- Result of `Series.notna()` on a column already converted with
`astype(str)`: every entry is a plain string, so the test always holds. -/
def notnaStr (_ : String) : Bool := true

/-- Lines 107-123 of `cleaner.py` on one row: per-column cleaning. -/
def stage1Row (r : RawRow) : DRow :=
  { Category := astypeStrStrip r.Category,
    ProductName := astypeStrStrip r.ProductName,
    Price := clean_price r.Price,
    Rating := some (clean_rating r.Rating),
    ReviewCount := some (clean_review_count r.ReviewCount),
    ProductURL := astypeStrStrip r.ProductURL }

/-- Lines 142-147 of `cleaner.py` on one row: round `Price`,
`PricePerReview` and `Rating` to two decimals. -/
def roundRow (r : CRow) : CRow :=
  { r with Price := r.Price.map round2,
           Rating := r.Rating.map round2,
           PricePerReview := r.PricePerReview.map round2 }

/-- Lines 149-153 of `cleaner.py`: the four `assert ... notna().all()`
checks, in source order; a failure aborts the run before the table is
returned or saved. -/
def validateTable (d : List CRow) : Except String (List CRow) :=
  if d.all (fun r => r.Price.isSome) then
    if d.all (fun r => r.PricePerReview.isSome) then
      if d.all (fun r => r.ReviewCount.isSome) then
        if d.all (fun r => r.Rating.isSome) then Except.ok d
        else Except.error "Rating column contains NULL values!"
      else Except.error "ReviewCount column contains NULL values!"
    else Except.error "PricePerReview column contains NULL values!"
  else Except.error "Price column contains NULL values!"

/-- The cleaner's `clean_data` (`cleaner.py` lines 97-165): per-column
cleaning, the row filter on `ProductName`, derivation, rounding and the
final validation. -/
def clean_data (df : List RawRow) : Except String (List CRow) :=
  let s := (df.map stage1Row).filter
    (fun r => notnaStr r.ProductName && r.ProductName != "")
  validateTable ((create_derived_features s).map roundRow)

/-- Conjunction of the four no-null column checks over a derived table. -/
def allNonNull (d : List CRow) : Bool :=
  d.all (fun r =>
    r.Price.isSome && r.PricePerReview.isSome && r.ReviewCount.isSome && r.Rating.isSome)

/-- One raw scraped product record (`scraper.py` lines 303-310). -/
structure ScrapedRecord where
  Category : String
  ProductName : String
  Price : Option ℚ
  Rating : Option ℚ
  ReviewCount : ℤ
  ProductURL : Option String
deriving DecidableEq

/-- One product block of a rendered page, summarized by the values its
field extraction yields; `malformed` stands for a block whose extraction
raises an exception (`scraper.py` lines 311-312). -/
inductive Block
  | malformed
  | fields (name : Option String) (price : Option ℚ) (rating : Option ℚ)
      (reviewCount : ℤ) (url : Option String)
deriving DecidableEq

/-- Test used by `product_url.startswith('http')`. -/
def startsWithHttp (s : String) : Bool := "http".data.isPrefixOf s.data

/-- URL canonicalization of `scraper.py` lines 251-252: a non-empty
relative URL gets the site prefix. -/
def canonUrl (u : Option String) : Option String :=
  match u with
  | none => none
  | some s =>
    if s != "" && !startsWithHttp s then some ("https://www.banggood.com" ++ s)
    else some s

/-- Block handling inside the page loop (`scraper.py` lines 233-312): a
missing or empty name skips the block, an extraction exception skips the
block, otherwise a record is appended. -/
def extractBlock (cat : String) (b : Block) : Option ScrapedRecord :=
  match b with
  | Block.malformed => none
  | Block.fields name price rating rc url =>
    match name with
    | none => none
    | some n =>
      if n == "" then none
      else some { Category := cat, ProductName := n, Price := price,
                  Rating := rating, ReviewCount := rc, ProductURL := canonUrl url }

/-- The per-block loop of `scrape_page`: each block contributes at most one
record, a bad block is skipped without touching its neighbours. -/
def parseBlocks (cat : String) (bs : List Block) : List ScrapedRecord :=
  bs.filterMap (extractBlock cat)

/-- Retry ceiling, `MAX_RETRIES_PER_PAGE` in `scraper.py` line 31. -/
def MAX_RETRIES_PER_PAGE : ℕ := 3

/-- Outcome of one navigation attempt for a page: whether navigation or
parsing raises (caught by the outer `except`), whether one of the three
waited-for content markers appeared, and the product blocks found. -/
structure PageAttempt where
  navThrows : Bool
  rendered : Bool
  blocks : List Block
deriving DecidableEq

/-- Worker for `scrape_page` (`scraper.py` lines 184-317): `env k` is the
outcome of attempt `k`.  A navigation exception returns the records so far
(none); unrendered content retries while `retry < MAX_RETRIES_PER_PAGE`
and otherwise degrades to an empty page.  The fuel argument is structural
and always at least `MAX_RETRIES_PER_PAGE + 1 - retry`. -/
def scrapeGo (cat : String) (env : ℕ → PageAttempt) : ℕ → ℕ → List ScrapedRecord
  | 0, _ => []
  | fuel + 1, retry =>
    let a := env retry
    if a.navThrows then []
    else if a.rendered then parseBlocks cat a.blocks
    else if retry < MAX_RETRIES_PER_PAGE then scrapeGo cat env fuel (retry + 1)
    else []

/-- The scraper's `scrape_page` (`scraper.py` lines 184-317). -/
def scrape_page (cat : String) (env : ℕ → PageAttempt) (retry : ℕ) : List ScrapedRecord :=
  scrapeGo cat env (MAX_RETRIES_PER_PAGE + 1 - retry) retry

/-- The page loop of `main` for one category (`scraper.py` lines 350-363):
visit the listed pages in order; a page beyond page 1 that yields no
records stops the crawl, keeping what was already collected. -/
def crawlPages (records : ℕ → List ScrapedRecord) : List ℕ → List ScrapedRecord
  | [] => []
  | p :: rest =>
    let ps := records p
    if ps = [] ∧ 1 < p then []
    else ps ++ crawlPages records rest

/-- A category crawl over pages `1..n` (`scraper.py` lines 350-363), with
`records p` the result of `scrape_page` for page `p`. -/
def crawlCategory (records : ℕ → List ScrapedRecord) (n : ℕ) : List ScrapedRecord :=
  crawlPages records (List.range' 1 n)

/-- Pages-per-category default, `PAGES_PER_CATEGORY` in `scraper.py` line 30. -/
def PAGES_PER_CATEGORY : ℕ := 5

/-- Raw table with a single row whose price is 0.251 and review count 2. -/
def dfC2 : List RawRow :=
  [{ Category := some "A", ProductName := some "P", Price := Cell.num (251 / 1000),
     Rating := Cell.null, ReviewCount := Cell.num 2, ProductURL := some "u" }]

/-- The cleaned row `clean_data` produces from `dfC2`. -/
def rowC2 : CRow :=
  { Category := "A", ProductName := "P", Price := some (1 / 4), Rating := some 0,
    ReviewCount := some 2, IsHighValue := 0, PricePerReview := some (13 / 100),
    ProductURL := "u" }

/-- Raw table with a single row whose product name is missing. -/
def dfC5 : List RawRow :=
  [{ Category := some "Tools", ProductName := none, Price := Cell.null,
     Rating := Cell.null, ReviewCount := Cell.null, ProductURL := none }]

/-- The cleaned row `clean_data` produces from `dfC5`: the missing name
has become the literal string `nan` and the row was not dropped. -/
def rowC5 : CRow :=
  { Category := "Tools", ProductName := "nan", Price := some 0, Rating := some 0,
    ReviewCount := some 0, IsHighValue := 0, PricePerReview := some 0,
    ProductURL := "nan" }

/-- Raw table with a single row whose rating cell is the number 7.3. -/
def dfC6 : List RawRow :=
  [{ Category := some "A", ProductName := some "P", Price := Cell.num 1,
     Rating := Cell.num (73 / 10), ReviewCount := Cell.num 1, ProductURL := some "u" }]

/-- The cleaned row `clean_data` produces from `dfC6`: the rating 7.3 is
kept unchanged, outside the interval `[0, 5]`. -/
def rowC6 : CRow :=
  { Category := "A", ProductName := "P", Price := some 1, Rating := some (73 / 10),
    ReviewCount := some 1, IsHighValue := 0, PricePerReview := some 1,
    ProductURL := "u" }

/-- Raw table used by the witness of the rating amendment: one in-range
string rating and one missing rating. -/
def dfC6W : List RawRow :=
  [{ Category := some "A", ProductName := some "P", Price := Cell.num 2,
     Rating := Cell.num (45 / 10), ReviewCount := Cell.num 3, ProductURL := some "u" },
   { Category := some "A", ProductName := some "Q", Price := Cell.num 4,
     Rating := Cell.null, ReviewCount := Cell.null, ProductURL := none }]

/-- Raw table used by the witness of the no-null theorem: one fully
populated row and one row with every numeric field missing. -/
def dfC1W : List RawRow :=
  [{ Category := some "Tools", ProductName := some "A", Price := Cell.str "US$12.50",
     Rating := Cell.str "4.8", ReviewCount := Cell.str "3 reviews", ProductURL := some "u" },
   { Category := some "Tools", ProductName := some "B", Price := Cell.null,
     Rating := Cell.str "3.0", ReviewCount := Cell.str "0", ProductURL := some "u" }]

/-- Cleaned-stage table used by the witness of the high-value rule: two
rows of one category with distinct prices. -/
def dfC3 : List DRow :=
  [{ Category := "A", ProductName := "x", Price := some 10, Rating := some (47 / 10),
     ReviewCount := some 2, ProductURL := "u" },
   { Category := "A", ProductName := "y", Price := some 30, Rating := some 1,
     ReviewCount := some 1, ProductURL := "u" }]

/-- The derived row `create_derived_features` produces from the first row
of `dfC3`: rating 4.7 and price 10 below the category median 20. -/
def rowC3 : CRow :=
  { Category := "A", ProductName := "x", Price := some 10, Rating := some (47 / 10),
    ReviewCount := some 2, IsHighValue := 1, PricePerReview := some 5,
    ProductURL := "u" }

/-- Page environment that never renders and never throws. -/
def envNeverRendered : ℕ → PageAttempt :=
  fun _ => { navThrows := false, rendered := false, blocks := [] }

/-- Page environment whose first attempt renders a page holding one good
block, one malformed block and another good block. -/
def envOneBad : ℕ → PageAttempt :=
  fun _ => { navThrows := false, rendered := true,
             blocks := [Block.fields (some "g1") none none 0 none, Block.malformed,
                        Block.fields (some "g2") none none 1 none] }

/-- One concrete scraped record used by the crawl witness. -/
def prodW : ScrapedRecord :=
  { Category := "c", ProductName := "p", Price := none, Rating := none,
    ReviewCount := 0, ProductURL := none }

/-- Page results of a simulated category crawl: pages 1 and 2 return one
record, page 3 and all later pages return none. -/
def recordsW : ℕ → List ScrapedRecord :=
  fun q => if q = 1 ∨ q = 2 then [prodW] else []

/-- C4: on the input `"1,024 reviews"` the code returns 1, not the 1024
the specification requires, because the digit-run search stops at the
comma; the empty-string case does return 0. -/
theorem extract_review_count_comma_eval :
    extract_review_count "1,024 reviews" = 1 ∧ extract_review_count "" = 0 := by
  constructor <;> decide

/-- C5: a raw row whose `ProductName` is null survives `clean_data` as the
literal string `nan`, because `astype(str)` runs before the `notna`
filter; the claim that null-name rows are dropped fails on this input. -/
theorem clean_data_keeps_null_name :
    clean_data dfC5 = Except.ok [rowC5] ∧ rowC5.ProductName = "nan" := by
  exact ⟨by with_unfolding_all rfl, rfl⟩

/-- C2 counterexample: on a one-row table with price 0.251 and review
count 2 the final `PricePerReview` is 0.13, but recomputing it from the
final (rounded) `Price` 0.25 gives 0.12. -/
theorem clean_data_ppr_cex :
    clean_data dfC2 = Except.ok [rowC2] ∧
    rowC2.PricePerReview ≠
      some (round2 ((rowC2.Price.getD 0) / ((max (rowC2.ReviewCount.getD 0) 1 : ℤ) : ℚ))) := by
  refine ⟨by with_unfolding_all rfl, ?_⟩
  with_unfolding_all decide

/-- C6 counterexample: a raw numeric rating 7.3 passes through
`clean_rating` unchanged, so the cleaned table holds a rating outside
`[0, 5]`. -/
theorem clean_data_rating_range_cex :
    clean_data dfC6 = Except.ok [rowC6] ∧ ¬ rowC6.Rating.getD 0 ≤ 5 := by
  refine ⟨by with_unfolding_all rfl, ?_⟩
  with_unfolding_all decide

/-- C10: `create_derived_features` preserves the number of rows, their
order, and the `Category`, `ProductName` and `ProductURL` of every row;
it is a pure function of its input (the source copies the frame before
mutating the copy). -/
theorem create_derived_features_frame (df : List DRow) :
    (create_derived_features df).length = df.length ∧
    ∀ i : ℕ,
      ((create_derived_features df)[i]?).map
          (fun r => (r.Category, r.ProductName, r.ProductURL)) =
        (df[i]?).map (fun r => (r.Category, r.ProductName, r.ProductURL)) := by
  constructor
  · simp [create_derived_features, cdfStage3, cdfStage2, cdfStage1]
  · intro i
    cases h : df[i]? with
    | none =>
      simp [create_derived_features, cdfStage3, cdfStage2, cdfStage1, List.getElem?_map, h]
    | some v =>
      simp [create_derived_features, cdfStage3, cdfStage2, cdfStage1, List.getElem?_map, h,
        cdfRowOut, fillOverall, imputeCat, cdfFillRR]

theorem cdfStage3_shape (df : List DRow) :
    ∀ x ∈ cdfStage3 df, ∃ p rat n,
      x.Price = some p ∧ x.Rating = some rat ∧ x.ReviewCount = some n := by
  intro x hx
  unfold cdfStage3 at hx
  obtain ⟨y, hy, rfl⟩ := List.mem_map.mp hx
  unfold cdfStage2 at hy
  obtain ⟨z, hz, rfl⟩ := List.mem_map.mp hy
  unfold cdfStage1 at hz
  obtain ⟨w, hw, rfl⟩ := List.mem_map.mp hz
  exact ⟨_, _, _, rfl, rfl, rfl⟩

theorem cdf_rating_src (df : List DRow) :
    ∀ u ∈ create_derived_features df, ∃ x ∈ df, u.Rating = some (x.Rating.getD 0) := by
  intro u hu
  unfold create_derived_features cdfStage3 cdfStage2 cdfStage1 at hu
  obtain ⟨x3, hx3, rfl⟩ := List.mem_map.mp hu
  obtain ⟨x2, hx2, rfl⟩ := List.mem_map.mp hx3
  obtain ⟨x1, hx1, rfl⟩ := List.mem_map.mp hx2
  obtain ⟨x0, hx0, rfl⟩ := List.mem_map.mp hx1
  exact ⟨x0, hx0, rfl⟩

theorem cdf_fields (df : List DRow) :
    ∀ u ∈ create_derived_features df, ∃ p n,
      u.Price = some p ∧ u.Rating.isSome = true ∧ u.ReviewCount = some n ∧
      u.PricePerReview = some (p / ((max n 1 : ℤ) : ℚ)) := by
  intro u hu
  unfold create_derived_features at hu
  obtain ⟨x, hx, rfl⟩ := List.mem_map.mp hu
  obtain ⟨p, rat, n, hp, hrat, hn⟩ := cdfStage3_shape df x hx
  refine ⟨p, n, ?_, ?_, ?_, ?_⟩ <;>
    simp [cdfRowOut, hp, hrat, hn]

theorem filter_price_map (cm : String → Option ℚ) (l : List DRow) (c : String) :
    ((l.map (cdfRowOut cm)).filter (fun r => r.Category == c)).filterMap
        (fun r => r.Price) =
      (l.filter (fun r => r.Category == c)).filterMap (fun r => r.Price) := by
  induction l with
  | nil => rfl
  | cons a l ih =>
    have h2 : (cdfRowOut cm a).Category = a.Category := rfl
    have h3 : (cdfRowOut cm a).Price = a.Price := rfl
    by_cases hc : (a.Category == c) = true
    · simp only [List.map_cons, List.filter_cons, h2, hc, if_true,
        List.filterMap_cons, h3, ih]
    · simp only [List.map_cons, List.filter_cons, h2, hc, if_false, ih]
      simp [ih]

theorem catMedianOut_eq (df : List DRow) (c : String) :
    categoryMedianOut (create_derived_features df) c = catMedOf (cdfStage3 df) c := by
  unfold categoryMedianOut catMedOf create_derived_features
  rw [filter_price_map]

theorem catMedOf_isSome_of_mem (s3 : List DRow) (x : DRow) (hx : x ∈ s3) (p : ℚ)
    (hp : x.Price = some p) : ∃ m, catMedOf s3 x.Category = some m := by
  unfold catMedOf
  have hmem : p ∈ (s3.filter (fun r => r.Category == x.Category)).filterMap
      (fun r => r.Price) := by
    exact List.mem_filterMap.mpr ⟨x, List.mem_filter.mpr ⟨hx, by simp⟩, hp⟩
  have hne : (s3.filter (fun r => r.Category == x.Category)).filterMap
      (fun r => r.Price) ≠ [] := List.ne_nil_of_mem hmem
  unfold median
  simp [hne]

theorem validate_ok_eq (d t : List CRow) (h : validateTable d = Except.ok t) : t = d := by
  unfold validateTable at h
  split_ifs at h
  cases h
  rfl

theorem allNonNull_of (d : List CRow)
    (h1 : d.all (fun r => r.Price.isSome) = true)
    (h2 : d.all (fun r => r.PricePerReview.isSome) = true)
    (h3 : d.all (fun r => r.ReviewCount.isSome) = true)
    (h4 : d.all (fun r => r.Rating.isSome) = true) : allNonNull d = true := by
  simp only [allNonNull, List.all_eq_true, Bool.and_eq_true] at *
  intro r hr
  exact ⟨⟨⟨h1 r hr, h2 r hr⟩, h3 r hr⟩, h4 r hr⟩

/-- C1: `clean_data` always returns a table (the validation never fires),
that table has no nulls in the four numeric columns, and the validation
gate only ever lets a no-null table through. -/
theorem clean_data_no_nulls (df : List RawRow) (d : List CRow) :
    (∃ t, clean_data df = Except.ok t ∧ allNonNull t = true) ∧
    (∀ t2, validateTable d = Except.ok t2 → allNonNull d = true) := by
  constructor
  · have hpt : ∀ r ∈ ((create_derived_features
        ((df.map stage1Row).filter
          (fun r => notnaStr r.ProductName && r.ProductName != ""))).map roundRow),
        r.Price.isSome = true ∧ r.PricePerReview.isSome = true ∧
        r.ReviewCount.isSome = true ∧ r.Rating.isSome = true := by
      intro r hr
      obtain ⟨u, hu, rfl⟩ := List.mem_map.mp hr
      obtain ⟨p, n, hp, hrat, hn, hppr⟩ := cdf_fields _ u hu
      refine ⟨?_, ?_, ?_, ?_⟩ <;> simp [roundRow, hp, hn, hppr, hrat]
    have h1 := List.all_eq_true.mpr (fun r hr => (hpt r hr).1)
    have h2 := List.all_eq_true.mpr (fun r hr => (hpt r hr).2.1)
    have h3 := List.all_eq_true.mpr (fun r hr => (hpt r hr).2.2.1)
    have h4 := List.all_eq_true.mpr (fun r hr => (hpt r hr).2.2.2)
    have hval : validateTable ((create_derived_features
        ((df.map stage1Row).filter
          (fun r => notnaStr r.ProductName && r.ProductName != ""))).map roundRow) =
        Except.ok ((create_derived_features
        ((df.map stage1Row).filter
          (fun r => notnaStr r.ProductName && r.ProductName != ""))).map roundRow) := by
      unfold validateTable
      rw [h1, h2, h3, h4]
      rfl
    exact ⟨_, hval, allNonNull_of _ h1 h2 h3 h4⟩
  · intro t2 h
    unfold validateTable at h
    split_ifs at h with h1 h2 h3 h4
    exact allNonNull_of d h1 h2 h3 h4

/-- C2 amended: every row of the final table satisfies
`PricePerReview = round2(p / max(ReviewCount, 1))` where `p` is the row's
post-imputation, pre-rounding price (the price whose rounding is the
final `Price` value), not the rounded final price itself. -/
theorem clean_data_ppr_amended (df : List RawRow) (t : List CRow)
    (h : clean_data df = Except.ok t) :
    ∀ r ∈ t, ∃ p n, r.ReviewCount = some n ∧ r.Price = some (round2 p) ∧
      r.PricePerReview = some (round2 (p / ((max n 1 : ℤ) : ℚ))) := by
  intro r hr
  unfold clean_data at h
  have ht := validate_ok_eq _ _ h
  subst ht
  obtain ⟨u, hu, rfl⟩ := List.mem_map.mp hr
  obtain ⟨p, n, hp, hrat, hn, hppr⟩ := cdf_fields _ u hu
  exact ⟨p, n, by simp [roundRow, hn], by simp [roundRow, hp], by simp [roundRow, hppr]⟩

/-- C3: in the derived table, a row is flagged high-value exactly when its
rating is at least 4.5 and its price is strictly below the median of the
post-imputation prices of its category; an undefined category median
(impossible for a row of the table) forces the flag to 0. -/
theorem create_derived_features_high_value (df : List DRow) :
    ∀ r ∈ create_derived_features df,
      (r.IsHighValue = 1 ↔
        ((9 : ℚ) / 2 ≤ r.Rating.getD 0 ∧
         ∃ m, categoryMedianOut (create_derived_features df) r.Category = some m ∧
           r.Price.getD 0 < m)) ∧
      (categoryMedianOut (create_derived_features df) r.Category = none →
        r.IsHighValue = 0) := by
  intro r hr
  obtain ⟨x, hx, rfl⟩ := List.mem_map.mp hr
  obtain ⟨p, rat, n, hp, hrat, hn⟩ := cdfStage3_shape df x hx
  have hcat : (cdfRowOut (catMedOf (cdfStage3 df)) x).Category = x.Category := rfl
  rw [hcat, catMedianOut_eq]
  obtain ⟨m, hm⟩ := catMedOf_isSome_of_mem (cdfStage3 df) x hx p hp
  constructor
  · constructor
    · intro h1
      simp only [cdfRowOut, hp, hrat, hm] at h1 ⊢
      by_cases hcond : (9 : ℚ) / 2 ≤ rat ∧ p < m
      · exact ⟨by simpa [hrat] using hcond.1, m, rfl, by simpa [hp] using hcond.2⟩
      · simp [hcond] at h1
    · rintro ⟨hr1, m2, hm2, hr2⟩
      rw [hm] at hm2
      cases hm2
      simp only [cdfRowOut, hp, hrat, hm]
      simp only [cdfRowOut, hrat] at hr1
      simp only [cdfRowOut, hp] at hr2
      simp [Option.getD] at hr1 hr2
      simp [hr1, hr2]
  · intro hnone
    rw [hm] at hnone
    cases hnone

theorem rhe_bounds (x : ℚ) (h0 : 0 ≤ x) (hu : x ≤ 500) :
    0 ≤ rhe x ∧ rhe x ≤ 500 := by
  unfold rhe
  have hf0 : (0 : ℤ) ≤ ⌊x⌋ := Int.floor_nonneg.mpr h0
  have hfl : (⌊x⌋ : ℚ) ≤ x := Int.floor_le x
  have hfu : ⌊x⌋ ≤ (500 : ℤ) := by exact_mod_cast le_trans hfl hu
  split_ifs with ha hb hc
  · exact ⟨hf0, hfu⟩
  · refine ⟨by omega, ?_⟩
    have hlt : ⌊x⌋ < (500 : ℤ) := by
      by_contra hcon
      push_neg at hcon
      have h5 : (500 : ℚ) ≤ (⌊x⌋ : ℚ) := by exact_mod_cast hcon
      linarith
    omega
  · exact ⟨hf0, hfu⟩
  · refine ⟨by omega, ?_⟩
    have heq : x - ⌊x⌋ = 1 / 2 := le_antisymm (not_lt.mp hb) (not_lt.mp ha)
    have hlt : ⌊x⌋ < (500 : ℤ) := by
      by_contra hcon
      push_neg at hcon
      have h5 : (500 : ℚ) ≤ (⌊x⌋ : ℚ) := by exact_mod_cast hcon
      linarith
    omega

theorem round2_bounds (q : ℚ) (h0 : 0 ≤ q) (h5 : q ≤ 5) :
    0 ≤ round2 q ∧ round2 q ≤ 5 := by
  unfold round2
  obtain ⟨hl, hr⟩ := rhe_bounds (q * 100) (by linarith) (by linarith)
  constructor
  · have : (0 : ℚ) ≤ ((rhe (q * 100) : ℤ) : ℚ) := by exact_mod_cast hl
    linarith
  · have : ((rhe (q * 100) : ℤ) : ℚ) ≤ 500 := by exact_mod_cast hr
    linarith

/-- C6 amended: the cleaned `Rating` is never null; `clean_rating` maps a
missing value to 0.0 and passes numeric input through unchanged, but it
performs no range check, so the cleaned ratings lie in `[0, 5]` exactly
when every raw rating cleans to a value in that interval (as all
scraper-produced ratings do). -/
theorem clean_data_rating_amended (df : List RawRow) (t : List CRow)
    (h : clean_data df = Except.ok t) :
    (∀ r ∈ t, r.Rating.isSome = true) ∧
    clean_rating Cell.null = 0 ∧
    (∀ q, clean_rating (Cell.num q) = q) ∧
    ((∀ v ∈ df, 0 ≤ clean_rating v.Rating ∧ clean_rating v.Rating ≤ 5) →
      ∀ r ∈ t, 0 ≤ r.Rating.getD 0 ∧ r.Rating.getD 0 ≤ 5) := by
  unfold clean_data at h
  have ht := validate_ok_eq _ _ h
  subst ht
  refine ⟨?_, rfl, fun q => rfl, ?_⟩
  · intro r hr
    obtain ⟨u, hu, rfl⟩ := List.mem_map.mp hr
    obtain ⟨p, n, hp, hrat, hn, hppr⟩ := cdf_fields _ u hu
    simp [roundRow, hrat]
  · intro hrange r hr
    obtain ⟨u, hu, rfl⟩ := List.mem_map.mp hr
    obtain ⟨x, hx, hxr⟩ := cdf_rating_src _ u hu
    have hx2 : x ∈ (df.map stage1Row) := List.mem_of_mem_filter hx
    obtain ⟨v, hv, rfl⟩ := List.mem_map.mp hx2
    have hsr : (stage1Row v).Rating = some (clean_rating v.Rating) := rfl
    rw [hsr] at hxr
    have hgd : (roundRow u).Rating.getD 0 = round2 (clean_rating v.Rating) := by
      simp [roundRow, hxr]
    rw [hgd]
    exact round2_bounds _ (hrange v hv).1 (hrange v hv).2

theorem dropWhile_head_not (p : Char → Bool) (l : List Char) (c : Char) (t : List Char)
    (h : l.dropWhile p = c :: t) : p c = false := by
  induction l with
  | nil => cases h
  | cons a l ih =>
    rw [List.dropWhile_cons] at h
    by_cases hp : p a = true
    · rw [if_pos hp] at h
      exact ih h
    · rw [if_neg hp] at h
      cases h
      simpa using hp

theorem dropWhile_idem (p : Char → Bool) (l : List Char) :
    (l.dropWhile p).dropWhile p = l.dropWhile p := by
  cases h : l.dropWhile p with
  | nil => rfl
  | cons c t =>
    rw [List.dropWhile_cons, dropWhile_head_not p l c t h]
    simp

theorem dropWhile_eq_append (p : Char → Bool) (l : List Char) :
    ∃ t, l = t ++ l.dropWhile p := by
  induction l with
  | nil => exact ⟨[], rfl⟩
  | cons a l ih =>
    rw [List.dropWhile_cons]
    by_cases hp : p a = true
    · obtain ⟨t, ht⟩ := ih
      rw [if_pos hp]
      exact ⟨a :: t, by rw [List.cons_append, ← ht]⟩
    · rw [if_neg hp]
      exact ⟨[], rfl⟩

theorem mem_of_mem_dropWhile (p : Char → Bool) (l : List Char) (a : Char)
    (h : a ∈ l.dropWhile p) : a ∈ l := by
  obtain ⟨t, ht⟩ := dropWhile_eq_append p l
  rw [ht]
  exact List.mem_append_right t h

theorem length_dropWhile_le_aux (p : Char → Bool) (l : List Char) :
    (l.dropWhile p).length ≤ l.length := by
  induction l with
  | nil => simp
  | cons a l ih =>
    rw [List.dropWhile_cons]
    by_cases hp : p a = true
    · rw [if_pos hp]
      simp
      omega
    · rw [if_neg hp]

theorem dropWhile_eq_self_head (p : Char → Bool) (c : Char) (rest : List Char)
    (h : (c :: rest).dropWhile p = c :: rest) : p c = false := by
  rw [List.dropWhile_cons] at h
  by_cases hp : p c = true
  · rw [if_pos hp] at h
    have hlen := congrArg List.length h
    have hle := length_dropWhile_le_aux p rest
    simp at hlen
    omega
  · simpa using hp

theorem mem_of_mem_pyStrip (l : List Char) (c : Char) (h : c ∈ pyStrip l) : c ∈ l := by
  unfold pyStrip at h
  rw [List.mem_reverse] at h
  have h2 := mem_of_mem_dropWhile _ _ _ h
  rw [List.mem_reverse] at h2
  exact mem_of_mem_dropWhile _ _ _ h2

theorem pyStrip_idem (l : List Char) : pyStrip (pyStrip l) = pyStrip l := by
  unfold pyStrip
  set a := l.dropWhile pySpace with ha
  set b := a.reverse.dropWhile pySpace with hb
  have haa : a.dropWhile pySpace = a := by rw [ha]; exact dropWhile_idem _ _
  have h1 : b.reverse.dropWhile pySpace = b.reverse := by
    cases hc : b.reverse with
    | nil => rfl
    | cons c t =>
      obtain ⟨t0, ht0⟩ := dropWhile_eq_append pySpace a.reverse
      have hab : a = b.reverse ++ t0.reverse := by
        rw [hb, ← List.reverse_append, ← ht0, List.reverse_reverse]
      rw [hc] at hab
      have hab2 : a = c :: (t ++ t0.reverse) := by simpa using hab
      have hpc : pySpace c = false := by
        apply dropWhile_eq_self_head pySpace c (t ++ t0.reverse)
        rw [← hab2]
        exact haa
      rw [List.dropWhile_cons, hpc]
      simp
  rw [h1, List.reverse_reverse, hb, dropWhile_idem]

theorem replChar_fix (l : List Char) (c : Char) (h : c ∈ replStep l) :
    replChar c = some c := by
  obtain ⟨d, hd, hdc⟩ := List.mem_filterMap.mp h
  unfold replChar at hdc
  split_ifs at hdc with h1 h2
  all_goals first
    | (cases hdc; decide)
    | (cases hdc; simp [replChar, h1, h2])

theorem replStep_fix_all (l : List Char) (h : ∀ c ∈ l, replChar c = some c) :
    replStep l = l := by
  induction l with
  | nil => rfl
  | cons a l ih =>
    have ha := h a (List.mem_cons_self a l)
    have hrest : ∀ c ∈ l, replChar c = some c := fun c hc => h c (List.mem_cons_of_mem a hc)
    simp only [replStep, List.filterMap_cons, ha]
    exact congrArg (a :: ·) (ih hrest)

theorem rmCtrl_no_ctrl (l : List Char) (c : Char) (h : c ∈ rmCtrl l) :
    isCtrl c = false := by
  have := List.of_mem_filter h
  simpa using this

theorem mem_of_mem_rmCtrl (l : List Char) (c : Char) (h : c ∈ rmCtrl l) : c ∈ l :=
  List.mem_of_mem_filter h

theorem rmCtrl_fix_all (l : List Char) (h : ∀ c ∈ l, isCtrl c = false) :
    rmCtrl l = l := by
  unfold rmCtrl
  rw [List.filter_eq_self]
  intro a ha
  simp [h a ha]

theorem cleanChars_no_target (l : List Char) (c : Char) (h : c ∈ cleanChars l) :
    replChar c = some c ∧ isCtrl c = false := by
  unfold cleanChars at h
  by_cases he : l.isEmpty
  · rw [if_pos he] at h
    cases h
  · rw [if_neg he] at h
    have h2 := mem_of_mem_pyStrip _ _ h
    exact ⟨replChar_fix _ _ (mem_of_mem_rmCtrl _ _ h2), rmCtrl_no_ctrl _ _ h2⟩

theorem cleanChars_idem (l : List Char) : cleanChars (cleanChars l) = cleanChars l := by
  by_cases he : l.isEmpty
  · unfold cleanChars
    rw [if_pos he]
    rfl
  · by_cases hy : (cleanChars l).isEmpty
    · have hy2 : cleanChars l = [] := List.isEmpty_iff.mp hy
      rw [hy2]
      rfl
    · have hstrip : pyStrip (cleanChars l) = cleanChars l := by
        unfold cleanChars
        rw [if_neg he]
        exact pyStrip_idem _
      have hrepl : replStep (cleanChars l) = cleanChars l :=
        replStep_fix_all _ (fun c hc => (cleanChars_no_target l c hc).1)
      have hctrl : rmCtrl (cleanChars l) = cleanChars l :=
        rmCtrl_fix_all _ (fun c hc => (cleanChars_no_target l c hc).2)
      conv_lhs => rw [cleanChars]
      rw [if_neg hy, hstrip, hrepl, hctrl, hstrip]

/-- C7: `clean_text` is idempotent. -/
theorem clean_text_idem (s : String) : clean_text (clean_text s) = clean_text s :=
  congrArg String.mk (cleanChars_idem s.data)

theorem scrapeGo_step_unrendered (cat : String) (env : ℕ → PageAttempt) (fuel retry : ℕ)
    (hn : (env retry).navThrows = false) (hr : (env retry).rendered = false)
    (hlt : retry < MAX_RETRIES_PER_PAGE) :
    scrapeGo cat env (fuel + 1) retry = scrapeGo cat env fuel (retry + 1) := by
  simp [scrapeGo, hn, hr, hlt]

theorem scrapeGo_exhausted (cat : String) (env : ℕ → PageAttempt) (fuel : ℕ)
    (hn : (env MAX_RETRIES_PER_PAGE).navThrows = false)
    (hr : (env MAX_RETRIES_PER_PAGE).rendered = false) :
    scrapeGo cat env (fuel + 1) MAX_RETRIES_PER_PAGE = [] := by
  simp [scrapeGo, hn, hr]

theorem scrapeGo_congr (cat : String) (env env2 : ℕ → PageAttempt)
    (h : ∀ k, k ≤ MAX_RETRIES_PER_PAGE → env k = env2 k) :
    ∀ fuel retry, retry + fuel ≤ MAX_RETRIES_PER_PAGE + 1 →
      scrapeGo cat env fuel retry = scrapeGo cat env2 fuel retry := by
  intro fuel
  induction fuel with
  | zero => intro retry _; rfl
  | succ fuel ih =>
    intro retry hle
    have hr : retry ≤ MAX_RETRIES_PER_PAGE := by
      unfold MAX_RETRIES_PER_PAGE at *
      omega
    have he := h retry hr
    simp only [scrapeGo, he]
    by_cases hn : (env2 retry).navThrows
    · simp [hn]
    · by_cases hrd : (env2 retry).rendered
      · simp [hn, hrd]
      · by_cases hlt : retry < MAX_RETRIES_PER_PAGE
        · simp [hn, hrd, hlt, ih (retry + 1) (by omega)]
        · simp [hn, hrd, hlt]

/-- C8: `scrape_page` degrades a never-rendering page to an empty result
after the retry ceiling, an exception in one product block drops only
that block, and the result is determined by at most
`MAX_RETRIES_PER_PAGE + 1` attempts. -/
theorem scrape_page_error_policy (cat : String) (env : ℕ → PageAttempt)
    (bs1 bs2 : List Block) :
    ((∀ k, (env k).rendered = false ∧ (env k).navThrows = false) →
      scrape_page cat env 0 = []) ∧
    ((env 0).navThrows = false → (env 0).rendered = true →
      (env 0).blocks = bs1 ++ Block.malformed :: bs2 →
      scrape_page cat env 0 = parseBlocks cat bs1 ++ parseBlocks cat bs2) ∧
    (∀ env2 : ℕ → PageAttempt,
      (∀ k, k ≤ MAX_RETRIES_PER_PAGE → env k = env2 k) →
      scrape_page cat env 0 = scrape_page cat env2 0) := by
  refine ⟨?_, ?_, ?_⟩
  · intro h
    show scrapeGo cat env (3 + 1) 0 = []
    rw [scrapeGo_step_unrendered cat env 3 0 (h 0).2 (h 0).1 (by decide)]
    show scrapeGo cat env (2 + 1) 1 = []
    rw [scrapeGo_step_unrendered cat env 2 1 (h 1).2 (h 1).1 (by decide)]
    show scrapeGo cat env (1 + 1) 2 = []
    rw [scrapeGo_step_unrendered cat env 1 2 (h 2).2 (h 2).1 (by decide)]
    show scrapeGo cat env (0 + 1) 3 = []
    exact scrapeGo_exhausted cat env 0 (h 3).2 (h 3).1
  · intro hn hr hb
    show scrapeGo cat env (3 + 1) 0 = parseBlocks cat bs1 ++ parseBlocks cat bs2
    simp only [scrapeGo, hn, hr]
    simp only [Bool.false_eq_true, if_false, if_true]
    rw [hb]
    simp [parseBlocks, List.filterMap_append, extractBlock]
  · intro env2 h
    exact scrapeGo_congr cat env env2 h 4 0 (by decide)

theorem crawlPages_all (records : ℕ → List ScrapedRecord) (pages : List ℕ)
    (h : ∀ q ∈ pages, ¬(records q = [] ∧ 1 < q)) :
    crawlPages records pages = (pages.map records).flatten := by
  induction pages with
  | nil => rfl
  | cons p rest ih =>
    unfold crawlPages
    rw [if_neg (h p (List.mem_cons_self p rest))]
    rw [ih (fun q hq => h q (List.mem_cons_of_mem p hq))]
    simp

theorem crawlPages_stop (records : ℕ → List ScrapedRecord) (l1 : List ℕ) (p : ℕ)
    (l2 : List ℕ) (hp : records p = []) (h1 : 1 < p)
    (h : ∀ q ∈ l1, ¬(records q = [] ∧ 1 < q)) :
    crawlPages records (l1 ++ p :: l2) = (l1.map records).flatten := by
  induction l1 with
  | nil =>
    simp only [List.nil_append]
    unfold crawlPages
    rw [if_pos ⟨hp, h1⟩]
    rfl
  | cons a l1 ih =>
    simp only [List.cons_append]
    unfold crawlPages
    rw [if_neg (h a (List.mem_cons_self a l1))]
    rw [ih (fun q hq => h q (List.mem_cons_of_mem a hq))]
    simp

/-- C9: a category crawl over pages `1..n` stops at the first page beyond
page 1 that yields no records, keeping exactly the earlier pages'
records; when no page beyond page 1 is empty the crawl visits all pages,
regardless of what page 1 returned. -/
theorem crawl_early_stop (records : ℕ → List ScrapedRecord) (n p : ℕ) :
    (1 < p → p ≤ n → records p = [] →
      (∀ q, 1 < q → q < p → records q ≠ []) →
      crawlCategory records n = ((List.range' 1 (p - 1)).map records).flatten) ∧
    ((∀ q, 1 < q → q ≤ n → records q ≠ []) →
      crawlCategory records n = ((List.range' 1 n).map records).flatten) := by
  constructor
  · intro h1 h2 h3 h4
    unfold crawlCategory
    have hsplit : List.range' 1 n =
        List.range' 1 (p - 1) ++ p :: List.range' (p + 1) (n - p) := by
      have e1 : List.range' 1 (p - 1) ++ List.range' (1 + (p - 1)) (n - p + 1) =
          List.range' 1 (n - p + 1 + (p - 1)) := List.range'_append_1 1 (p - 1) (n - p + 1)
      have e2 : 1 + (p - 1) = p := by omega
      have e3 : n - p + 1 + (p - 1) = n := by omega
      rw [e2, e3] at e1
      rw [← e1, List.range'_succ]
    rw [hsplit]
    apply crawlPages_stop records _ p _ h3 h1
    intro q hq
    rw [List.mem_range'_1] at hq
    rintro ⟨hqe, hq1⟩
    exact h4 q hq1 (by omega) hqe
  · intro h
    unfold crawlCategory
    apply crawlPages_all
    intro q hq
    rw [List.mem_range'_1] at hq
    rintro ⟨hqe, hq1⟩
    exact h q hq1 (by omega) hqe

/-- Witness for the no-null theorem at a concrete two-row table. -/
theorem clean_data_no_nulls_witness :
    (∃ t, clean_data dfC1W = Except.ok t ∧ allNonNull t = true) ∧
    allNonNull ([] : List CRow) = true := by
  refine ⟨(clean_data_no_nulls dfC1W []).1, ?_⟩
  exact (clean_data_no_nulls dfC1W []).2 [] (by with_unfolding_all rfl)

/-- Witness for the amended price-per-review theorem on `dfC2`. -/
theorem clean_data_ppr_amended_witness :
    ∃ p n, rowC2.ReviewCount = some n ∧ rowC2.Price = some (round2 p) ∧
      rowC2.PricePerReview = some (round2 (p / ((max n 1 : ℤ) : ℚ))) :=
  clean_data_ppr_amended dfC2 [rowC2] (by with_unfolding_all rfl) rowC2
    (List.mem_singleton.mpr rfl)

/-- Witness for the high-value rule on the concrete table `dfC3`. -/
theorem create_derived_features_high_value_witness :
    (rowC3.IsHighValue = 1 ↔
      ((9 : ℚ) / 2 ≤ rowC3.Rating.getD 0 ∧
       ∃ m, categoryMedianOut (create_derived_features dfC3) rowC3.Category = some m ∧
         rowC3.Price.getD 0 < m)) ∧
    (categoryMedianOut (create_derived_features dfC3) rowC3.Category = none →
      rowC3.IsHighValue = 0) :=
  create_derived_features_high_value dfC3 rowC3 (by with_unfolding_all decide)

/-- Witness for the amended rating theorem on `dfC6W`. -/
theorem clean_data_rating_amended_witness :
    clean_rating Cell.null = 0 ∧
    (∀ v ∈ dfC6W, 0 ≤ clean_rating v.Rating ∧ clean_rating v.Rating ≤ 5) ∧
    (∀ r ∈ (clean_data dfC6W).toOption.getD [],
      0 ≤ r.Rating.getD 0 ∧ r.Rating.getD 0 ≤ 5) := by
  have h := clean_data_rating_amended dfC6W ((clean_data dfC6W).toOption.getD [])
    (by with_unfolding_all rfl)
  refine ⟨h.2.1, ?_, ?_⟩
  · intro v hv
    fin_cases hv <;> constructor <;> with_unfolding_all decide
  · exact h.2.2.2 (by intro v hv; fin_cases hv <;> constructor <;> with_unfolding_all decide)

/-- Witness for the page-fetch policy at two concrete environments. -/
theorem scrape_page_error_policy_witness :
    scrape_page "c" envNeverRendered 0 = [] ∧
    scrape_page "c" envOneBad 0 =
      parseBlocks "c" [Block.fields (some "g1") none none 0 none] ++
      parseBlocks "c" [Block.fields (some "g2") none none 1 none] := by
  constructor
  · exact (scrape_page_error_policy "c" envNeverRendered [] []).1 (fun k => ⟨rfl, rfl⟩)
  · exact (scrape_page_error_policy "c" envOneBad
      [Block.fields (some "g1") none none 0 none]
      [Block.fields (some "g2") none none 1 none]).2.1 rfl rfl rfl

/-- Witness for the early-stop rule: pages 3 to 5 of `recordsW` are empty,
so the crawl of five pages keeps exactly pages 1 and 2. -/
theorem crawl_early_stop_witness :
    crawlCategory recordsW 5 = ((List.range' 1 2).map recordsW).flatten := by
  refine (crawl_early_stop recordsW 5 3).1 (by decide) (by decide) (by decide) ?_
  intro q h1 h2
  have hq : q = 2 := by omega
  subst hq
  decide
